import Mathlib

/-!
# Verification of the plv8 Postgres/v8 type-conversion layer (plv8_type.cc)

A shallow embedding of the converters in `plv8_type.cc`:
the dynamic (v8/JavaScript) value model, the Postgres datum model,
the scalar/array/record encoders (`ToScalarDatum`, `ToArrayDatum`,
`ToRecordDatum`, `ToDatum`), the decoders (`ToScalarValue`,
`ToArrayValue`, `ToValue`), the external typed-array fast path
(`CreateExternalArray`, `ExtractExternalArrayDatum`), the direct JSONB
tree builder (`JsonbFromValue` / `JsonbObjectFromObject` /
`JsonbArrayFromArray` / `ConvertObject`), the epoch conversions
(`TimestampTzToEpoch`, `EpochToTimestampTz`, `DateToEpoch`,
`EpochToDate`) and the type-inference helper (`inferred_datum_type`).

Modelling conventions:
* C doubles are modelled as exact rationals (`ℚ`); casts from a double
  to a C integer type are modelled by `ratTrunc` (truncation toward
  zero), matching the C conversion for in-range values.  Rounding of
  binary floating-point arithmetic is not modelled.
* Database-side primitives that live outside this repository
  (input/output functions, `numeric` arithmetic, `jsonb_in`, tuple
  converters for composite types, the v8 engine's `ToString`,
  `JSON.parse`/`JSON.stringify`, `strftime`) are abstract parameters
  collected in `PgEnv`; the repository's own control flow over them is
  modelled exactly.
* `NaN` dates are representable (`DynValue.date none`); the
  implementation-defined result of casting a NaN double to an integer
  is an abstract `PgEnv` parameter.
-/

/-- Truncation of a rational toward zero, the semantics of a C cast
from `double` to a (wide enough) integer type.  `Int.div` truncates
toward zero. -/
def ratTrunc (q : ℚ) : Int := Int.tdiv q.num (q.den : Int)

/-- Reduce an integer into the signed 32-bit range by wrapping modulo
`2^32` (the ECMAScript `ToInt32` wrap). -/
def wrapInt32 (n : Int) : Int :=
  let m := n.emod (2 ^ 32)
  if 2 ^ 31 ≤ m then m - 2 ^ 32 else m

/-- Reduce an integer into the signed 16-bit range by wrapping (the C
cast `(int16)` applied to an `int32` value). -/
def wrapInt16 (n : Int) : Int :=
  let m := n.emod (2 ^ 16)
  if 2 ^ 15 ≤ m then m - 2 ^ 16 else m

/-- Reduce an integer into the signed 64-bit range by wrapping
(`v8::BigInt::Int64Value`). -/
def wrapInt64 (n : Int) : Int :=
  let m := n.emod (2 ^ 64)
  if 2 ^ 63 ≤ m then m - 2 ^ 64 else m

/-- ECMAScript `ToInt32` of a (finite) number value. -/
def ratToInt32 (q : ℚ) : Int := wrapInt32 (ratTrunc q)

/-- ECMAScript `ToUint32` of a (finite) number value. -/
def ratToUint32 (q : ℚ) : Nat := ((ratTrunc q).emod (2 ^ 32)).toNat

/-! ## Postgres type OIDs and category codes (from `pg_type.h`) -/

def InvalidOid : Nat := 0
def BOOLOID : Nat := 16
def BYTEAOID : Nat := 17
def INT8OID : Nat := 20
def INT2OID : Nat := 21
def INT4OID : Nat := 23
def TEXTOID : Nat := 25
def OIDOID : Nat := 26
def JSONOID : Nat := 114
def XMLOID : Nat := 142
def FLOAT4OID : Nat := 700
def FLOAT8OID : Nat := 701
def BPCHAROID : Nat := 1042
def VARCHAROID : Nat := 1043
def DATEOID : Nat := 1082
def TIMESTAMPOID : Nat := 1114
def TIMESTAMPTZOID : Nat := 1184
def NUMERICOID : Nat := 1700
def RECORDOID : Nat := 2249
def RECORDARRAYOID : Nat := 2287
def JSONBOID : Nat := 3802

def TYPCATEGORY_ARRAY : Char := 'A'
def TYPCATEGORY_COMPOSITE : Char := 'C'

/-! ## Epoch constants (from Postgres `datatype/timestamp.h`) -/

/-- Julian date of the Postgres epoch 2000-01-01. -/
def POSTGRES_EPOCH_JDATE : Int := 2451545

/-- Julian date of the Unix epoch 1970-01-01. -/
def UNIX_EPOCH_JDATE : Int := 2440588

def USECS_PER_DAY : Int := 86400000000

def SECS_PER_DAY : Int := 86400

/-- The fixed epoch shift used by all date/time conversions, in
milliseconds: `(POSTGRES_EPOCH_JDATE - UNIX_EPOCH_JDATE) * 86400000.0`. -/
def epochShiftMs : ℚ := ((POSTGRES_EPOCH_JDATE - UNIX_EPOCH_JDATE : Int) : ℚ) * 86400000

/-! ## Epoch conversions (`TimestampTzToEpoch` and friends)

With `HAVE_INT64_TIMESTAMP` (the only mode in modern Postgres) a
timestamp datum is an `int64` count of microseconds since 2000-01-01;
without it, a `double` count of seconds.  Both modes are modelled; the
`Float`-suffixed functions are the `#else` (seconds) arms. -/

/-- `TimestampTzToEpoch`, microsecond (int64) timestamps:
`epoch = (double) tm / 1000.0 + shift`. -/
def TimestampTzToEpoch (tm : Int) : ℚ := (tm : ℚ) / 1000 + epochShiftMs

/-- `TimestampTzToEpoch`, second (float) timestamps:
`epoch = (double) tm * 1000.0 + shift`. -/
def TimestampTzToEpochFloat (tm : ℚ) : ℚ := tm * 1000 + epochShiftMs

/-- `EpochToTimestampTz`, microsecond (int64) timestamps:
`Int64GetDatum((int64) epoch * 1000)` after subtracting the shift —
the cast to `int64` happens before the multiplication. -/
def EpochToTimestampTz (epoch : ℚ) : Int := ratTrunc (epoch - epochShiftMs) * 1000

/-- `EpochToTimestampTz`, second (float) timestamps:
`Float8GetDatum(epoch / 1000.0)` after subtracting the shift. -/
def EpochToTimestampTzFloat (epoch : ℚ) : ℚ := (epoch - epochShiftMs) / 1000

/-- `DateToEpoch`, microsecond mode:
`(double) date * USECS_PER_DAY / 1000.0 + shift`. -/
def DateToEpoch (date : Int) : ℚ := (date : ℚ) * (USECS_PER_DAY : ℚ) / 1000 + epochShiftMs

/-- `EpochToDate`, microsecond mode: `(DateADT) ((epoch * 1000) / USECS_PER_DAY)`
after subtracting the shift. -/
def EpochToDate (epoch : ℚ) : Int := ratTrunc ((epoch - epochShiftMs) * 1000 / (USECS_PER_DAY : ℚ))

/-! ## Data model -/

/-- The `plv8_external_array_type` enumeration (`kExternal...Array`).
The same enumeration doubles as the element kind of a v8 typed array
(`Int8Array`, ..., `BigInt64Array`). -/
inductive ExtArrayType where
  | byte          -- kExternalByteArray / Int8Array
  | unsignedByte  -- kExternalUnsignedByteArray / Uint8Array
  | short         -- kExternalShortArray / Int16Array
  | unsignedShort -- kExternalUnsignedShortArray / Uint16Array
  | int           -- kExternalIntArray / Int32Array
  | unsignedInt   -- kExternalUnsignedIntArray / Uint32Array
  | float         -- kExternalFloatArray / Float32Array
  | double        -- kExternalDoubleArray / Float64Array
  | int64         -- kExternalInt64Array / BigInt64Array
deriving Repr, DecidableEq

/-- A JSONB document tree (`JsonbValue` containers flattened to a pure
tree: the result of a completed `pushJsonbValue` sequence).  `jnum`
carries the numeric value as an exact rational. -/
inductive JsonVal where
  | jnull
  | jbool (b : Bool)
  | jnum (q : ℚ)
  | jstr (s : String)
  | jarr (elems : List JsonVal)
  | jobj (fields : List (String × JsonVal))
deriving Repr, BEq

/-- A Postgres `Datum`, tagged with the representation relevant to each
converter arm.  `zero` is the literal `(Datum) 0` returned together
with `*isnull = true`.  An `array` datum records the dimension count,
the first lower bound, the null bitmap flag, the flattened elements
(`none` = NULL element) and the packed no-null element bytes
(`ARR_DATA_PTR` contents) used by the external-array fast path.  Datums produced by abstract database
functions are whatever the environment returns. -/
inductive Datum where
  | zero
  | bool (b : Bool)
  | int16 (n : Int)
  | int32 (n : Int)
  | int64 (n : Int)
  | oid (n : Nat)
  | float4 (q : ℚ)
  | float8 (q : ℚ)
  | text (s : String)
  | bytea (bytes : List UInt8)
  | dateadt (d : Int)
  | timestamp (tm : Int)
  | jsonb (j : JsonVal)
  | numericD (tag : String)
  | array (ndim : Nat) (lb : Int) (hasNull : Bool) (elems : List (Option Datum)) (data : List UInt8)
  | tuple (tag : String)
deriving Repr, BEq

/-- A v8 (JavaScript) value, restricted to the kinds the converters
distinguish.  A `date` carries its time value: `none` models an
invalid date (`NaN` time value), `some ms` a finite millisecond count
(ECMAScript time values are integral, but the payload is kept rational
because the C code manipulates it as a `double`).  A `typedArray`
carries its element kind, its underlying bytes, and the `Datum`
stashed in internal field 0 by `CreateExternalArray` (`none` for
arrays the script created itself, whose internal field does not hold a
datum pointer). -/
inductive DynValue where
  | undefined
  | null
  | boolean (b : Bool)
  | number (q : ℚ)
  | bigint (n : Int)
  | str (s : String)
  | date (ms : Option ℚ)
  | typedArray (kind : ExtArrayType) (bytes : List UInt8) (ext : Option Datum)
  | arrayBuffer (bytes : List UInt8)
  | arr (elems : List DynValue)
  | object (fields : List (String × DynValue))
deriving Repr, BEq

namespace DynValue

/-- `v8::Value::IsUndefined`. -/
def isUndefined : DynValue → Bool
  | .undefined => true
  | _ => false

/-- `v8::Value::IsNull`. -/
def isNull : DynValue → Bool
  | .null => true
  | _ => false

/-- `v8::Value::IsBoolean`. -/
def isBoolean : DynValue → Bool
  | .boolean _ => true
  | _ => false

/-- `v8::Value::IsNumber`. -/
def isNumber : DynValue → Bool
  | .number _ => true
  | _ => false

/-- `v8::Value::IsBigInt`. -/
def isBigInt : DynValue → Bool
  | .bigint _ => true
  | _ => false

/-- `v8::Value::IsString`. -/
def isString : DynValue → Bool
  | .str _ => true
  | _ => false

/-- `v8::Value::IsDate`. -/
def isDate : DynValue → Bool
  | .date _ => true
  | _ => false

/-- `v8::Value::IsArray`. -/
def isArray : DynValue → Bool
  | .arr _ => true
  | _ => false

/-- `v8::Value::IsObject`: true for plain objects, arrays, dates,
typed arrays and array buffers (all of which are JS objects). -/
def isObject : DynValue → Bool
  | .object _ => true
  | .arr _ => true
  | .date _ => true
  | .typedArray _ _ _ => true
  | .arrayBuffer _ => true
  | _ => false

/-- `v8::Value::IsTypedArray`. -/
def isTypedArray : DynValue → Bool
  | .typedArray _ _ _ => true
  | _ => false

/-- `v8::Value::IsArrayBuffer`. -/
def isArrayBuffer : DynValue → Bool
  | .arrayBuffer _ => true
  | _ => false

/-- A typed-array test for one specific element kind
(`IsInt8Array`, ..., `IsBigInt64Array`). -/
def isTypedArrayOf (k : ExtArrayType) : DynValue → Bool
  | .typedArray k' _ _ => k' = k
  | _ => false

/-- `v8::Value::IsInt32`: a number that is an integer in the signed
32-bit range.  (v8 also excludes `-0`, which has no separate rational
representation here.) -/
def isInt32 : DynValue → Bool
  | .number q => q.den = 1 ∧ -(2 ^ 31) ≤ q.num ∧ q.num < 2 ^ 31
  | _ => false

/-- `v8::Value::IsUint32`: a number that is an integer in the unsigned
32-bit range. -/
def isUint32 : DynValue → Bool
  | .number q => q.den = 1 ∧ 0 ≤ q.num ∧ q.num < 2 ^ 32
  | _ => false

/-- The `double` payload of a value known to satisfy `IsNumber`
(`NumberValue` restricted to actual numbers). -/
def numValue : DynValue → ℚ
  | .number q => q
  | _ => 0

/-- The payload of a value known to satisfy `IsBigInt`. -/
def bigintValue : DynValue → Int
  | .bigint n => n
  | _ => 0

/-- The time value of a value known to satisfy `IsDate`
(`NumberValue` of a Date; `none` = NaN). -/
def dateValue : DynValue → Option ℚ
  | .date t => t
  | _ => none

/-- The own enumerable properties walked by
`GetOwnPropertyNames`/`Get`.  Only plain objects carry modelled
properties; the (index) properties of other JS objects reached by the
JSONB walker are not modelled and enumerate as empty. -/
def ownProps : DynValue → List (String × DynValue)
  | .object fields => fields
  | _ => []

end DynValue

/-- The conversion error surface of the converters.  `jsError` is a
`throw js_error(msg)`; `pgError m` is a `throw pg_error()` re-raising
a database error whose (original) message is `m`; `datumRepr` marks a
datum whose representation does not match the type a converter
reinterprets it as — real code would reinterpret raw bits there, which
the model does not represent. -/
inductive ConvError where
  | jsError (msg : String)
  | pgError (msg : String)
  | datumRepr
deriving Repr, BEq

/-- The result of an encoder: the `*isnull` out-flag and the datum. -/
structure EncodeResult where
  isnull : Bool
  datum : Datum
deriving Repr, BEq

/-- The `plv8_type` descriptor, as filled by `plv8_fill_type`: the
type OID (for an array type, already replaced by the element OID), the
type category character, the composite flag, and the external-array
kind for the reserved `plv8_*array` domain types.  The physical layout
fields (`len`, `byval`, `align`) and the memoized input/output
function handles are consumed only by database primitives outside this
repository and are not carried. -/
structure PlV8Type where
  typid : Nat
  category : Char
  is_composite : Bool
  ext_array : Option ExtArrayType
deriving Repr, BEq

/-- The abstract environment: database primitives and v8 engine
services that `plv8_type.cc` calls but does not implement, plus the
compile-time configuration flags. -/
structure PgEnv where
  /-- `get_type_category_preferred` (category only). -/
  typeCategory : Nat → Char
  /-- `getTypeInputInfo` + `InputFunctionCall` for a type OID applied
  to a C string; an `error` is a database error caught by the
  surrounding `PG_TRY` and re-raised as `pg_error`. -/
  inputFn : Nat → String → Except String Datum
  /-- `getTypeOutputInfo` + `OutputFunctionCall` (via `ToString(Datum,
  plv8_type*)`), likewise `PG_TRY`-guarded. -/
  outputFn : Nat → Datum → Except String String
  /-- `jsonb_in` via `DirectFunctionCall1` (not `PG_TRY`-guarded in the
  source; an error there would escape the converter entirely, so the
  model treats it as total). -/
  jsonbIn : String → Datum
  /-- `numeric_in` via `DirectFunctionCall3` (same remark). -/
  numericIn : String → Datum
  /-- `float8_numeric` via `DirectFunctionCall1`. -/
  float8Numeric : ℚ → Datum
  /-- `numeric_float8` via `DirectFunctionCall1`. -/
  numericFloat8 : Datum → ℚ
  /-- `lookup_rowtype_tupdesc` + `Converter::ToDatum` for a composite
  type OID (the `Converter` class lives outside this file). -/
  recordToDatum : Nat → DynValue → Except ConvError Datum
  /-- `lookup_rowtype_tupdesc` + `Converter::ToValue`. -/
  recordToValue : Nat → Datum → Except ConvError DynValue
  /-- `v8::Value::ToString` (+ UTF-8 / database-encoding bridge). -/
  toStr : DynValue → String
  /-- v8 `JSON.stringify`. -/
  jsonStringify : DynValue → String
  /-- v8 `JSON.parse`. -/
  jsonParse : String → DynValue
  /-- `TimeAs8601` (gmtime/strftime based ISO-8601 rendering of a
  millisecond epoch value). -/
  timeAs8601 : ℚ → String
  /-- The packed element bytes `construct_md_array` lays out for a
  given element type OID and element list. -/
  packBytes : Nat → List (Option Datum) → List UInt8
  /-- Config `BIGINT_GRACEFUL` (`bigint_graceful` option). -/
  bigintGraceful : Bool
  /-- Config `JSONB_DIRECT_CONVERSION`. -/
  jsonbDirect : Bool
  /-- Implementation-defined result of the C cast `(int64)` applied to
  a NaN double (used when a NaN-valued Date meets `EpochToTimestampTz`). -/
  nanCastInt64 : Int
  /-- Implementation-defined result of the C cast `(DateADT)` (int32)
  applied to a NaN double (`EpochToDate` on a NaN date). -/
  nanCastDate : Int

/-! ## Direct JSONB conversion (`JSONB_DIRECT_CONVERSION` build arm)

`JsonbFromValue`, `JsonbArrayFromArray`, `JsonbObjectFromObject` and
`ConvertObject` drive Postgres' `pushJsonbValue` with a token stream.
The model builds the resulting document tree directly; the one
behavioural subtlety of `pushJsonbValue` that matters is that a
`WJB_KEY` not followed by a `WJB_VALUE` leaves the pair counter
untouched, so the dangling key is overwritten or discarded — which is
how an `undefined` member (whose `JsonbFromValue` returns `NULL`
without pushing anything) drops its key from the output. -/

/-- The scalar (non-key) arm of `JsonbFromValue`: the leaf pushed for
a value, or `none` when the function returns `NULL` without pushing
(the `IsUndefined` arm).  Arms in source order: `IsBoolean`, `IsNull`,
`IsUndefined`, `IsString`, `IsNumber` (its `int4`/`int8`/`float8`
numeric sub-arms all produce the same numeric value), `IsDate` (NaN →
JSON null, otherwise the ISO-8601 string), and the catch-all that
stringifies the value (after a NOTICE-level `LogType`). -/
def jsonbLeaf (env : PgEnv) : DynValue → Option JsonVal
  | .boolean b => some (.jbool b)
  | .null => some .jnull
  | .undefined => none
  | .str s => some (.jstr s)
  | .number q => some (.jnum q)
  | .date none => some .jnull
  | .date (some t) => some (.jstr (env.timeAs8601 t))
  | v => some (.jstr (env.toStr v))

mutual

/-- `JsonbObjectFromObject`, as the association list of pairs pushed
between `WJB_BEGIN_OBJECT` and `WJB_END_OBJECT`.  For each own
property: the key is pushed, then the value is dispatched on `IsDate`
/ `IsArray` / `IsObject` before falling back to the scalar leaf; a
leaf push that produces nothing (undefined) leaves the key dangling,
so the pair is dropped.  Non-plain JS objects (typed arrays, array
buffers) take the `IsObject` arm and are walked over their own
properties, which the model enumerates as empty (`.jobj []`). -/
def JsonbObjectFromObject (env : PgEnv) : List (String × DynValue) → List (String × JsonVal)
  | [] => []
  | (k, o) :: rest =>
    let pushed : Option JsonVal :=
      match o with
      | .date t => jsonbLeaf env (.date t)
      | .arr elems => some (.jarr (JsonbArrayFromArray env elems))
      | .object fields => some (.jobj (JsonbObjectFromObject env fields))
      | .typedArray _ _ _ => some (.jobj [])
      | .arrayBuffer _ => some (.jobj [])
      | o' => jsonbLeaf env o'
    match pushed with
    | none => JsonbObjectFromObject env rest
    | some jv => (k, jv) :: JsonbObjectFromObject env rest
termination_by l => sizeOf l
decreasing_by all_goals (simp_wf <;> omega)

/-- `JsonbArrayFromArray`: elements pushed between `WJB_BEGIN_ARRAY`
and `WJB_END_ARRAY`.  Dispatch order is `IsArray` / `IsObject` / leaf —
note there is no `IsDate` arm here, so a Date element is walked as an
object (its own properties, which enumerate empty in the model, hence
`.jobj []`).  An undefined element pushes nothing and is dropped. -/
def JsonbArrayFromArray (env : PgEnv) : List DynValue → List JsonVal
  | [] => []
  | o :: rest =>
    let pushed : Option JsonVal :=
      match o with
      | .arr elems => some (.jarr (JsonbArrayFromArray env elems))
      | .object fields => some (.jobj (JsonbObjectFromObject env fields))
      | .date _ => some (.jobj [])
      | .typedArray _ _ _ => some (.jobj [])
      | .arrayBuffer _ => some (.jobj [])
      | o' => jsonbLeaf env o'
    match pushed with
    | none => JsonbArrayFromArray env rest
    | some jv => jv :: JsonbArrayFromArray env rest
termination_by l => sizeOf l
decreasing_by all_goals (simp_wf <;> omega)

end

/-- `ConvertObject`: top-level entry of the direct JSONB encoder.  An
array or object is walked structurally; anything else is wrapped in a
single-element array (an undefined scalar pushes nothing, leaving the
array empty). -/
def ConvertObject (env : PgEnv) (v : DynValue) : JsonVal :=
  match v with
  | .arr elems => .jarr (JsonbArrayFromArray env elems)
  | .object fields => .jobj (JsonbObjectFromObject env fields)
  | .date t => .jobj (JsonbObjectFromObject env (DynValue.ownProps (.date t)))
  | .typedArray k b e => .jobj (JsonbObjectFromObject env (DynValue.ownProps (.typedArray k b e)))
  | .arrayBuffer b => .jobj (JsonbObjectFromObject env (DynValue.ownProps (.arrayBuffer b)))
  | v' => .jarr (JsonbArrayFromArray env [v'])

mutual

/-- `ConvertJsonb`/`JsonbIterate` (direct JSONB decoding): rebuild the
dynamic value graph from the document tree.  Numeric leaves go through
`numeric_float8`, modelled as the identity on the stored rational. -/
def jsonbToDyn : JsonVal → DynValue
  | .jnull => .null
  | .jbool b => .boolean b
  | .jnum q => .number q
  | .jstr s => .str s
  | .jarr elems => .arr (jsonbToDynList elems)
  | .jobj fields => .object (jsonbToDynFields fields)
termination_by j => sizeOf j
decreasing_by all_goals (simp_wf <;> omega)

/-- Elementwise `jsonbToDyn` over array elements. -/
def jsonbToDynList : List JsonVal → List DynValue
  | [] => []
  | e :: rest => jsonbToDyn e :: jsonbToDynList rest
termination_by l => sizeOf l
decreasing_by all_goals (simp_wf <;> omega)

/-- Pairwise `jsonbToDyn` over object fields. -/
def jsonbToDynFields : List (String × JsonVal) → List (String × DynValue)
  | [] => []
  | (k, v) :: rest => (k, jsonbToDyn v) :: jsonbToDynFields rest
termination_by l => sizeOf l
decreasing_by all_goals (simp_wf <;> omega)

end

/-! ## External typed-array exchange -/

/-- `CreateExternalArray`: build a typed array over a fresh buffer
holding a copy of `byte_size` bytes of `data`, remember the source
datum in internal field 0.  The `kExternalInt64Array` arm constructs a
`BigInt64Array` but has no `break`, so control continues into the
`default` arm and throws `js_error("unexpected array type")`. -/
def CreateExternalArray (array_type : ExtArrayType) (data : List UInt8) (datum : Datum) :
    Except ConvError DynValue :=
  match array_type with
  | .int64 => .error (.jsError "unexpected array type")
  | k => .ok (.typedArray k data (some datum))

/-- `ExtractExternalArrayDatum`: the datum stashed in internal field 0
of a typed array (set by `CreateExternalArray`), `NULL` for
undefined/null values and for non-typed-array values.  A typed array
the script created itself has no datum in that field (`ext = none`). -/
def ExtractExternalArrayDatum : DynValue → Option Datum
  | .typedArray _ _ ext => ext
  | _ => none

/-! ## Encoding: dynamic value → datum -/

/-- `ToRecordDatum`: undefined/null become SQL NULL with a zero datum;
otherwise the row conversion (tuple-descriptor lookup plus the
`Converter` class, both outside this file) runs for the type's OID. -/
def ToRecordDatum (env : PgEnv) (type : PlV8Type) (value : DynValue) :
    Except ConvError EncodeResult :=
  if value.isUndefined || value.isNull then .ok ⟨true, .zero⟩
  else (env.recordToDatum type.typid value).map (fun d => ⟨false, d⟩)

/-- The tail of `ToScalarDatum` after the `switch`: "use lexical cast
for non-numeric types" — stringify the value (`CString str(value)`)
and call the type's input function under `PG_TRY`, re-raising a
database failure as `pg_error`. -/
def lexicalCast (env : PgEnv) (type : PlV8Type) (value : DynValue) :
    Except ConvError EncodeResult :=
  match env.inputFn type.typid (env.toStr value) with
  | .ok d => .ok ⟨false, d⟩
  | .error m => .error (.pgError m)

/-- The shared `case JSONBOID` arm of `ToScalarDatum` (also reached
from `case BYTEAOID`, which does not `break`): under
`JSONB_DIRECT_CONVERSION` every value is handed to `ConvertObject`;
otherwise an object or array is `JSON.stringify`-ed and fed to
`jsonb_in`, and anything else breaks out to the lexical cast. -/
def jsonbArm (env : PgEnv) (type : PlV8Type) (value : DynValue) :
    Except ConvError EncodeResult :=
  if env.jsonbDirect then .ok ⟨false, .jsonb (ConvertObject env value)⟩
  else if value.isObject || value.isArray then
    .ok ⟨false, env.jsonbIn (env.jsonStringify value)⟩
  else lexicalCast env type value

/-- The `case BYTEAOID` body before the fallthrough: the typed-array /
array-buffer copies (each branch copies the view's bytes into a fresh
bytea varlena) and the external-datum extraction.  `none` means the
case falls through into the JSONB arm. -/
def byteaTry : DynValue → Option Datum
  | .typedArray k bytes ext =>
    if k = .unsignedByte ∨ k = .byte then some (.bytea bytes)
    else if k = .unsignedShort ∨ k = .short then some (.bytea bytes)
    else if k = .unsignedInt ∨ k = .int then some (.bytea bytes)
    else ext
  | .arrayBuffer bytes => some (.bytea bytes)
  | _ => none

/-- `ToScalarDatum`.  A composite type is routed to `ToRecordDatum`
first; undefined/null become SQL NULL; then the `switch` on the type
OID runs, every unmatched kind check `break`-ing out to the lexical
cast.  `CHECK_INTEGER_OVERFLOW` is not defined, so INT2/INT4 truncate.
`case BYTEAOID` has no `break` and falls through into `case JSONBOID`
when no typed-array branch hits. -/
def ToScalarDatum (env : PgEnv) (type : PlV8Type) (value : DynValue) :
    Except ConvError EncodeResult :=
  if type.category = TYPCATEGORY_COMPOSITE then ToRecordDatum env type value
  else if value.isUndefined || value.isNull then .ok ⟨true, .zero⟩
  else if type.typid = OIDOID then
    match value with
    | .number q => .ok ⟨false, .oid (ratToUint32 q)⟩
    | _ => lexicalCast env type value
  else if type.typid = BOOLOID then
    match value with
    | .boolean b => .ok ⟨false, .bool b⟩
    | _ => lexicalCast env type value
  else if type.typid = INT2OID then
    match value with
    | .number q => .ok ⟨false, .int16 (wrapInt16 (ratToInt32 q))⟩
    | _ => lexicalCast env type value
  else if type.typid = INT4OID then
    match value with
    | .number q => .ok ⟨false, .int32 (ratToInt32 q)⟩
    | _ => lexicalCast env type value
  else if type.typid = INT8OID then
    match value with
    | .bigint n => .ok ⟨false, .int64 (wrapInt64 n)⟩
    | .number q => .ok ⟨false, .int64 (ratTrunc q)⟩
    | _ => lexicalCast env type value
  else if type.typid = FLOAT4OID then
    match value with
    | .number q => .ok ⟨false, .float4 q⟩
    | _ => lexicalCast env type value
  else if type.typid = FLOAT8OID then
    match value with
    | .number q => .ok ⟨false, .float8 q⟩
    | _ => lexicalCast env type value
  else if type.typid = NUMERICOID then
    match value with
    | .bigint n => .ok ⟨false, env.numericIn (env.toStr (.bigint n))⟩
    | .number q => .ok ⟨false, env.float8Numeric q⟩
    | _ => lexicalCast env type value
  else if type.typid = DATEOID then
    match value with
    | .date (some t) => .ok ⟨false, .dateadt (EpochToDate t)⟩
    | .date none => .ok ⟨false, .dateadt env.nanCastDate⟩
    | _ => lexicalCast env type value
  else if type.typid = TIMESTAMPOID ∨ type.typid = TIMESTAMPTZOID then
    match value with
    | .date (some t) => .ok ⟨false, .timestamp (EpochToTimestampTz t)⟩
    | .date none => .ok ⟨false, .timestamp (env.nanCastInt64 * 1000)⟩
    | _ => lexicalCast env type value
  else if type.typid = BYTEAOID then
    match byteaTry value with
    | some d => .ok ⟨false, d⟩
    | none => jsonbArm env type value
  else if type.typid = JSONBOID then jsonbArm env type value
  else if type.typid = JSONOID then
    if value.isObject || value.isArray then
      .ok ⟨false, .text (env.jsonStringify value)⟩
    else lexicalCast env type value
  else lexicalCast env type value

/-- The per-element loop of `ToArrayDatum`: each element goes through
`ToRecordDatum` (composite element type) or `ToScalarDatum`, yielding
the parallel `values`/`nulls` entries (`none` = null flag set). -/
def encodeElems (env : PgEnv) (type : PlV8Type) : List DynValue →
    Except ConvError (List (Option Datum))
  | [] => .ok []
  | v :: rest =>
    match (if type.is_composite then ToRecordDatum env type v else ToScalarDatum env type v) with
    | .error e => .error e
    | .ok r =>
      match encodeElems env type rest with
      | .error e => .error e
      | .ok ds => .ok ((if r.isnull then none else some r.datum) :: ds)

/-- `ToArrayDatum`: undefined/null become SQL NULL; a typed array with
an attached datum passes that datum through unchanged; anything that
is not a JS array throws; otherwise every element is converted and the
result packed by `construct_md_array` into a one-dimensional array
with lower bound 1. -/
def ToArrayDatum (env : PgEnv) (type : PlV8Type) (value : DynValue) :
    Except ConvError EncodeResult :=
  if value.isUndefined || value.isNull then .ok ⟨true, .zero⟩
  else
    match ExtractExternalArrayDatum value with
    | some d => .ok ⟨false, d⟩
    | none =>
      match value with
      | .arr elems =>
        match encodeElems env type elems with
        | .error e => .error e
        | .ok ds => .ok ⟨false, .array 1 1 (ds.any Option.isNone) ds (env.packBytes type.typid ds)⟩
      | _ => .error (.jsError "value is not an Array")

/-- `ToDatum`: the typed entry point of the encode direction. -/
def ToDatum (env : PgEnv) (type : PlV8Type) (value : DynValue) :
    Except ConvError EncodeResult :=
  if type.category = TYPCATEGORY_ARRAY then ToArrayDatum env type value
  else ToScalarDatum env type value

/-! ## Decoding: datum → dynamic value -/

/-- `ToScalarValue`: the `switch` on the type OID in the decode
direction.  Each arm expects the datum representation of its type
(`DatumGet...` reinterprets raw bits; a mismatched representation is
out of the model and yields `datumRepr`).  The INT8 arm honours
`BIGINT_GRACEFUL`; text-likes pass through the encoding bridge
(modelled as the identity); bytea yields an unsigned-byte external
array over a copy of its payload; JSON parses its text; JSONB either
walks the native tree (`JSONB_DIRECT_CONVERSION`) or round-trips
through the output function and `JSON.parse`; the `default` arm
stringifies via the output function. -/
def ToScalarValue (env : PgEnv) (type : PlV8Type) (datum : Datum) :
    Except ConvError DynValue :=
  if type.typid = OIDOID then
    match datum with
    | .oid n => .ok (.number n)
    | _ => .error .datumRepr
  else if type.typid = BOOLOID then
    match datum with
    | .bool b => .ok (.boolean b)
    | _ => .error .datumRepr
  else if type.typid = INT2OID then
    match datum with
    | .int16 n => .ok (.number n)
    | _ => .error .datumRepr
  else if type.typid = INT4OID then
    match datum with
    | .int32 n => .ok (.number n)
    | _ => .error .datumRepr
  else if type.typid = INT8OID then
    match datum with
    | .int64 v =>
      if env.bigintGraceful then
        if v > 2147483647 ∨ v < -2147483648 then .ok (.str (toString v))
        else .ok (.number v)
      else .ok (.bigint v)
    | _ => .error .datumRepr
  else if type.typid = FLOAT4OID then
    match datum with
    | .float4 q => .ok (.number q)
    | _ => .error .datumRepr
  else if type.typid = FLOAT8OID then
    match datum with
    | .float8 q => .ok (.number q)
    | _ => .error .datumRepr
  else if type.typid = NUMERICOID then
    .ok (.number (env.numericFloat8 datum))
  else if type.typid = DATEOID then
    match datum with
    | .dateadt d => .ok (.date (some (DateToEpoch d)))
    | _ => .error .datumRepr
  else if type.typid = TIMESTAMPOID ∨ type.typid = TIMESTAMPTZOID then
    match datum with
    | .timestamp tm => .ok (.date (some (TimestampTzToEpoch tm)))
    | _ => .error .datumRepr
  else if type.typid = TEXTOID ∨ type.typid = VARCHAROID ∨
          type.typid = BPCHAROID ∨ type.typid = XMLOID then
    match datum with
    | .text s => .ok (.str s)
    | _ => .error .datumRepr
  else if type.typid = BYTEAOID then
    match datum with
    | .bytea bytes => CreateExternalArray .unsignedByte bytes (.bytea bytes)
    | _ => .error .datumRepr
  else if type.typid = JSONOID then
    match datum with
    | .text s => .ok (env.jsonParse s)
    | _ => .error .datumRepr
  else if type.typid = JSONBOID then
    if env.jsonbDirect then
      match datum with
      | .jsonb j => .ok (jsonbToDyn j)
      | _ => .error .datumRepr
    else
      match env.outputFn type.typid datum with
      | .ok s => .ok (env.jsonParse s)
      | .error m => .error (.pgError m)
  else
    match env.outputFn type.typid datum with
    | .ok s => .ok (.str s)
    | .error m => .error (.pgError m)

/-- The element descriptor `ToArrayValue` rebuilds for `ToValue` on
each element: zero-initialized (`is_composite = false`, no external
kind), the element OID (`RECORDARRAYOID` collapsed to `RECORDOID`) and
its freshly looked-up category. -/
def arrayBase (env : PgEnv) (type : PlV8Type) : PlV8Type :=
  let baseTypid := if type.typid = RECORDARRAYOID then RECORDOID else type.typid
  { typid := baseTypid
    category := env.typeCategory baseTypid
    is_composite := false
    ext_array := none }

mutual

/-- `ToValue`: NULL decodes to the dynamic `null`; otherwise dispatch
on the category to the array, record, or scalar decoder. -/
def ToValue (env : PgEnv) (type : PlV8Type) (datum : Datum) (isnull : Bool) :
    Except ConvError DynValue :=
  if isnull then .ok .null
  else if type.category = TYPCATEGORY_ARRAY ∨ type.typid = RECORDARRAYOID then
    ToArrayValue env type datum
  else if type.category = TYPCATEGORY_COMPOSITE ∨ type.typid = RECORDOID then
    env.recordToValue type.typid datum
  else ToScalarValue env type datum
termination_by 2 * sizeOf datum + 1
decreasing_by simp_wf <;> omega

/-- `ToArrayValue`.  With an external-array element type: a no-null
array of at most one dimension yields a typed array over a copy of
its packed data bytes (`ARR_SIZE - ARR_OVERHEAD_NONULLS(1)` bytes from
`ARR_DATA_PTR`), everything else throws the shape error.  Otherwise
`deconstruct_array` flattens the array and each element is decoded
with the rebuilt element descriptor. -/
def ToArrayValue (env : PgEnv) (type : PlV8Type) (datum : Datum) :
    Except ConvError DynValue :=
  match type.ext_array with
  | some kind =>
    match datum with
    | .array ndim lb hasNull elems data =>
      if hasNull = false ∧ ndim ≤ 1 then
        CreateExternalArray kind data (.array ndim lb hasNull elems data)
      else
        .error (.jsError "NULL element, or multi-dimension array not allowed in external array type")
    | _ => .error .datumRepr
  | none =>
    match datum with
    | .array _ _ _ elems _ =>
      (mapToValue env (arrayBase env type) elems).map DynValue.arr
    | _ => .error .datumRepr
termination_by 2 * sizeOf datum
decreasing_by all_goals (simp_wf <;> omega)

/-- The per-element loop of `ToArrayValue`: `ToValue` on each
`values[i]`/`nulls[i]` pair. -/
def mapToValue (env : PgEnv) (base : PlV8Type) : List (Option Datum) →
    Except ConvError (List DynValue)
  | [] => .ok []
  | e :: rest =>
    match ToValue env base (e.getD .zero) e.isNone with
    | .error err => .error err
    | .ok v =>
      match mapToValue env base rest with
      | .error err => .error err
      | .ok vs => .ok (v :: vs)
termination_by l => 2 * sizeOf l
decreasing_by all_goals (cases e <;> simp_wf <;> omega)

end

/-! ## Type inference and descriptor resolution -/

/-- `inferred_datum_type`: the database type OID inferred from a JS
value's runtime kind; `InvalidOid` when none fits (currently objects
and arrays). -/
def inferred_datum_type (value : DynValue) : Nat :=
  if value.isUndefined || value.isNull then TEXTOID
  else if value.isBoolean then BOOLOID
  else if value.isInt32 then INT4OID
  else if value.isUint32 then INT8OID
  else if value.isBigInt then INT8OID
  else if value.isNumber then FLOAT8OID
  else if value.isString then TEXTOID
  else if value.isDate then TIMESTAMPOID
  else InvalidOid

/-- The type catalog slice consumed by `plv8_fill_type`. -/
structure Catalog where
  /-- `get_type_category_preferred` (category character). -/
  typeCategory : Nat → Char
  /-- `get_typtype t = TYPTYPE_DOMAIN`. -/
  isDomain : Nat → Bool
  /-- `NameStr(typtup->typname)` from the syscache row. -/
  typeName : Nat → String
  /-- `get_element_type` (`InvalidOid` = no element type). -/
  elementType : Nat → Nat

/-- `plv8_fill_type`: resolve a descriptor from the catalog.  A domain
whose name is one of the reserved `plv8_*array` names gets its
external-array kind and returns immediately; an array type swaps in
its element OID (failing loudly when there is none) and recomputes the
composite flag for the element. -/
def plv8_fill_type (cat : Catalog) (typid : Nat) : Except ConvError PlV8Type :=
  let category := cat.typeCategory typid
  let base : PlV8Type :=
    { typid := typid
      category := category
      is_composite := category = TYPCATEGORY_COMPOSITE
      ext_array := none }
  let ext : Option ExtArrayType :=
    if cat.isDomain typid then
      if cat.typeName typid = "plv8_int2array" then some .short
      else if cat.typeName typid = "plv8_int4array" then some .int
      else if cat.typeName typid = "plv8_float4array" then some .float
      else if cat.typeName typid = "plv8_float8array" then some .double
      else if cat.typeName typid = "plv8_int8array" then some .int64
      else none
    else none
  match ext with
  | some k => .ok { base with ext_array := some k }
  | none =>
    if category = TYPCATEGORY_ARRAY then
      let elemid := cat.elementType typid
      if elemid = InvalidOid then
        .error (.pgError s!"cannot determine element type of array: {typid}")
      else
        .ok { typid := elemid
              category := category
              is_composite := cat.typeCategory elemid = TYPCATEGORY_COMPOSITE
              ext_array := none }
    else .ok base

/-- The kind check each `ToScalarDatum` arm applies before using a
value directly; a `false` result makes the arm `break` out to the
lexical cast (except for the BYTEA/JSONB fallthrough, see
`c2_counterexample`).  Types without an arm in the `switch` expect no
particular kind and always take the lexical cast. -/
def kindMatches (typid : Nat) (value : DynValue) : Bool :=
  if typid = OIDOID ∨ typid = INT2OID ∨ typid = INT4OID ∨
     typid = FLOAT4OID ∨ typid = FLOAT8OID then value.isNumber
  else if typid = BOOLOID then value.isBoolean
  else if typid = INT8OID ∨ typid = NUMERICOID then value.isBigInt || value.isNumber
  else if typid = DATEOID ∨ typid = TIMESTAMPOID ∨ typid = TIMESTAMPTZOID then value.isDate
  else if typid = BYTEAOID then
    value.isTypedArrayOf .unsignedByte || value.isTypedArrayOf .byte ||
    value.isTypedArrayOf .unsignedShort || value.isTypedArrayOf .short ||
    value.isTypedArrayOf .unsignedInt || value.isTypedArrayOf .int ||
    value.isArrayBuffer || (ExtractExternalArrayDatum value).isSome
  else if typid = JSONBOID ∨ typid = JSONOID then value.isObject || value.isArray
  else false

/-! ## Fixed descriptors and concrete environments for witnesses -/

/-- The descriptor `plv8_fill_type` produces for `timestamp` (datetime
category `'D'`). -/
def timestampType : PlV8Type := ⟨TIMESTAMPOID, 'D', false, none⟩

/-- The descriptor for `int8` (numeric category `'N'`). -/
def int8Type : PlV8Type := ⟨INT8OID, 'N', false, none⟩

/-- The descriptor for `bool` (boolean category `'B'`). -/
def boolType : PlV8Type := ⟨BOOLOID, 'B', false, none⟩

/-- The descriptor for `bytea` (user category `'U'`). -/
def byteaType : PlV8Type := ⟨BYTEAOID, 'U', false, none⟩

/-- The descriptor for `int4[]` after `plv8_fill_type` (array category,
element OID swapped in). -/
def int4ArrayType : PlV8Type := ⟨INT4OID, TYPCATEGORY_ARRAY, false, none⟩

/-- A descriptor for a `plv8_int8array` domain column (the reserved
64-bit external-array domain). -/
def int8ArrayDomainType : PlV8Type := ⟨4242, TYPCATEGORY_ARRAY, false, some .int64⟩

/-- A concrete environment for witnesses: input functions echo the
string as a text datum, output functions render a fixed string, every
scalar category reads as `'N'`. -/
def envW : PgEnv :=
  { typeCategory := fun _ => 'N'
    inputFn := fun _ s => .ok (.text s)
    outputFn := fun _ _ => .ok "out"
    jsonbIn := fun s => .jsonb (.jstr s)
    numericIn := fun s => .numericD s
    float8Numeric := fun _ => .numericD "f8"
    numericFloat8 := fun _ => 0
    recordToDatum := fun _ _ => .ok (.tuple "rec")
    recordToValue := fun _ _ => .ok (.object [])
    toStr := fun v =>
      match v with
      | .str s => s
      | .bigint n => toString n
      | _ => "[object]"
    jsonStringify := fun _ => "{}"
    jsonParse := fun _ => .null
    timeAs8601 := fun _ => "1970-01-01T00:00:00.000Z"
    packBytes := fun _ _ => []
    bigintGraceful := false
    jsonbDirect := false
    nanCastInt64 := 0
    nanCastDate := 0 }

/-- The environment of the C2 counterexample: the textual input
function rejects everything, `jsonb_in` tags its result so the path
taken is visible in the output, direct JSONB conversion is off (the
default build). -/
def envCE : PgEnv :=
  { envW with
      inputFn := fun _ _ => .error "input function rejected"
      jsonbIn := fun _ => .text "via-jsonb-in" }

/-! ## Helper lemmas -/

theorem ratTrunc_intCast (m : Int) : ratTrunc (m : ℚ) = m := by
  simp [ratTrunc, Rat.num_intCast, Rat.den_intCast]

theorem encodeElems_length {env : PgEnv} {type : PlV8Type} :
    ∀ {vs : List DynValue} {ds : List (Option Datum)},
      encodeElems env type vs = .ok ds → ds.length = vs.length := by
  intro vs
  induction vs with
  | nil =>
    intro ds h
    simp only [encodeElems, Except.ok.injEq] at h
    simp [← h]
  | cons v rest ih =>
    intro ds h
    simp only [encodeElems] at h
    cases henc : (if type.is_composite then ToRecordDatum env type v
                  else ToScalarDatum env type v) with
    | error e => rw [henc] at h; simp at h
    | ok r =>
      rw [henc] at h
      cases hrest : encodeElems env type rest with
      | error e => rw [hrest] at h; simp at h
      | ok ds2 =>
        rw [hrest] at h
        simp only [Except.ok.injEq] at h
        subst h
        simp [ih hrest]

theorem encodeElems_get {env : PgEnv} {type : PlV8Type} :
    ∀ {vs : List DynValue} {ds : List (Option Datum)},
      encodeElems env type vs = .ok ds →
      ∀ i (hv : i < vs.length) (hd : i < ds.length),
        ∃ r : EncodeResult,
          (if type.is_composite then ToRecordDatum env type (vs.get ⟨i, hv⟩)
           else ToScalarDatum env type (vs.get ⟨i, hv⟩)) = .ok r ∧
          ds.get ⟨i, hd⟩ = (if r.isnull then none else some r.datum) := by
  intro vs
  induction vs with
  | nil => intro ds h i hv hd; exact absurd hv (by simp)
  | cons v rest ih =>
    intro ds h i hv hd
    simp only [encodeElems] at h
    cases henc : (if type.is_composite then ToRecordDatum env type v
                  else ToScalarDatum env type v) with
    | error e => rw [henc] at h; simp at h
    | ok r =>
      rw [henc] at h
      cases hrest : encodeElems env type rest with
      | error e => rw [hrest] at h; simp at h
      | ok ds2 =>
        rw [hrest] at h
        simp only [Except.ok.injEq] at h
        subst h
        match i with
        | 0 => exact ⟨r, henc, rfl⟩
        | i + 1 =>
          exact ih hrest i (Nat.lt_of_succ_lt_succ hv) (Nat.lt_of_succ_lt_succ hd)

theorem mapToValue_length {env : PgEnv} {base : PlV8Type} :
    ∀ {ds : List (Option Datum)} {ws : List DynValue},
      mapToValue env base ds = .ok ws → ws.length = ds.length := by
  intro ds
  induction ds with
  | nil =>
    intro ws h
    simp only [mapToValue, Except.ok.injEq] at h
    simp [← h]
  | cons e rest ih =>
    intro ws h
    rw [mapToValue] at h
    cases he : ToValue env base (e.getD .zero) e.isNone with
    | error err => rw [he] at h; simp at h
    | ok v =>
      rw [he] at h
      cases hrest : mapToValue env base rest with
      | error err => rw [hrest] at h; simp at h
      | ok ws2 =>
        rw [hrest] at h
        simp only [Except.ok.injEq] at h
        subst h
        simp [ih hrest]

theorem mapToValue_get {env : PgEnv} {base : PlV8Type} :
    ∀ {ds : List (Option Datum)} {ws : List DynValue},
      mapToValue env base ds = .ok ws →
      ∀ i (hd : i < ds.length) (hw : i < ws.length),
        ToValue env base ((ds.get ⟨i, hd⟩).getD .zero) (ds.get ⟨i, hd⟩).isNone
          = .ok (ws.get ⟨i, hw⟩) := by
  intro ds
  induction ds with
  | nil => intro ws h i hd hw; exact absurd hd (by simp)
  | cons e rest ih =>
    intro ws h i hd hw
    rw [mapToValue] at h
    cases he : ToValue env base (e.getD .zero) e.isNone with
    | error err => rw [he] at h; simp at h
    | ok v =>
      rw [he] at h
      cases hrest : mapToValue env base rest with
      | error err => rw [hrest] at h; simp at h
      | ok ws2 =>
        rw [hrest] at h
        simp only [Except.ok.injEq] at h
        subst h
        match i with
        | 0 => exact he
        | i + 1 =>
          exact ih hrest i (Nat.lt_of_succ_lt_succ hd) (Nat.lt_of_succ_lt_succ hw)

/-! ## Claim theorems -/

/-- C1: for every target type descriptor, encoding a dynamic value
that is Undefined or Null yields SQL NULL (`*isnull = true`, zero
datum) in the scalar, array and composite encoders; and for every
type, decoding a database value whose null flag is set yields the
dynamic Null value. -/
theorem c1_null_undefined_roundtrip :
    (∀ (env : PgEnv) (type : PlV8Type),
      ToScalarDatum env type .undefined = .ok ⟨true, .zero⟩ ∧
      ToScalarDatum env type .null = .ok ⟨true, .zero⟩) ∧
    (∀ (env : PgEnv) (type : PlV8Type),
      ToArrayDatum env type .undefined = .ok ⟨true, .zero⟩ ∧
      ToArrayDatum env type .null = .ok ⟨true, .zero⟩) ∧
    (∀ (env : PgEnv) (type : PlV8Type),
      ToRecordDatum env type .undefined = .ok ⟨true, .zero⟩ ∧
      ToRecordDatum env type .null = .ok ⟨true, .zero⟩) ∧
    (∀ (env : PgEnv) (type : PlV8Type) (datum : Datum),
      ToValue env type datum true = .ok .null) := by
  refine ⟨fun env type => ⟨?_, ?_⟩, fun env type => ⟨rfl, rfl⟩,
          fun env type => ⟨rfl, rfl⟩, fun env type datum => ?_⟩
  · simp [ToScalarDatum, ToRecordDatum, DynValue.isUndefined, DynValue.isNull]
  · simp [ToScalarDatum, ToRecordDatum, DynValue.isUndefined, DynValue.isNull]
  · simp [ToValue]

/-- C3 evaluated at the failing input: decoding a one-dimensional,
no-null array of the reserved 64-bit external kind does not produce a
BigInt64 typed buffer — the missing `break` in
`CreateExternalArray`'s `kExternalInt64Array` arm falls into the
`default` arm and throws "unexpected array type". -/
theorem c3_int64_buffer_lost :
    ToArrayValue envW int8ArrayDomainType
      (.array 1 1 false [some (.int64 1), some (.int64 2)]
        [1, 0, 0, 0, 0, 0, 0, 0, 2, 0, 0, 0, 0, 0, 0, 0])
      = .error (.jsError "unexpected array type") := by
  rw [ToArrayValue]
  simp [int8ArrayDomainType, CreateExternalArray]

/-- C5: with microsecond (int64) timestamps, decoding yields
`tm / 1000 + 10957 * 86400000` milliseconds, where `10957` is
`POSTGRES_EPOCH_JDATE - UNIX_EPOCH_JDATE` (the day offset between
2000-01-01 and 1970-01-01); with second timestamps it yields
`tm * 1000 + 10957 * 86400000`; encoding applies the exact inverse
(the microsecond encoder truncates the shifted epoch to whole
milliseconds first, so its inverse identity is stated on
integral-millisecond epochs — the only values an ECMAScript Date can
carry). -/
theorem c5_epoch_formulas :
    POSTGRES_EPOCH_JDATE - UNIX_EPOCH_JDATE = 10957 ∧
    (∀ tm : Int, TimestampTzToEpoch tm = (tm : ℚ) / 1000 + 10957 * 86400000) ∧
    (∀ tm : ℚ, TimestampTzToEpochFloat tm = tm * 1000 + 10957 * 86400000) ∧
    (∀ epoch : ℚ, (∃ m : Int, epoch = (m : ℚ)) →
      ((EpochToTimestampTz epoch : Int) : ℚ) = (epoch - 10957 * 86400000) * 1000) ∧
    (∀ epoch : ℚ, EpochToTimestampTzFloat epoch = (epoch - 10957 * 86400000) / 1000) := by
  refine ⟨by norm_num [POSTGRES_EPOCH_JDATE, UNIX_EPOCH_JDATE], fun tm => ?_, fun tm => ?_,
          fun epoch hm => ?_, fun epoch => ?_⟩
  · norm_num [TimestampTzToEpoch, epochShiftMs, POSTGRES_EPOCH_JDATE, UNIX_EPOCH_JDATE]
  · norm_num [TimestampTzToEpochFloat, epochShiftMs, POSTGRES_EPOCH_JDATE, UNIX_EPOCH_JDATE]
  · obtain ⟨m, rfl⟩ := hm
    have hshift : (m : ℚ) - epochShiftMs = ((m - 946684800000 : Int) : ℚ) := by
      push_cast
      norm_num [epochShiftMs, POSTGRES_EPOCH_JDATE, UNIX_EPOCH_JDATE]
    rw [EpochToTimestampTz, hshift, ratTrunc_intCast]
    push_cast
    ring
  · norm_num [EpochToTimestampTzFloat, epochShiftMs, POSTGRES_EPOCH_JDATE, UNIX_EPOCH_JDATE]

/-- Witness for C5: the inverse identity instantiated at the concrete
integral epoch 946684800001 ms. -/
theorem c5_epoch_formulas_witness :
    ((EpochToTimestampTz 946684800001 : Int) : ℚ)
      = ((946684800001 : ℚ) - 10957 * 86400000) * 1000 :=
  c5_epoch_formulas.2.2.2.1 946684800001 ⟨946684800001, by norm_num⟩

/-- C6: a Date with (integral) millisecond epoch value `n`, encoded as
TIMESTAMP, becomes the microsecond count `(n - 946684800000) * 1000`,
and decoding that timestamp reproduces the Date value `n` exactly. -/
theorem c6_date_roundtrip (env : PgEnv) (n : Int) :
    ToScalarDatum env timestampType (.date (some (n : ℚ)))
      = .ok ⟨false, .timestamp ((n - 946684800000) * 1000)⟩ ∧
    ToScalarValue env timestampType (.timestamp ((n - 946684800000) * 1000))
      = .ok (.date (some (n : ℚ))) := by
  have hshift : (n : ℚ) - epochShiftMs = ((n - 946684800000 : Int) : ℚ) := by
    push_cast
    norm_num [epochShiftMs, POSTGRES_EPOCH_JDATE, UNIX_EPOCH_JDATE]
  have harm : EpochToTimestampTz (n : ℚ) = (n - 946684800000) * 1000 := by
    rw [EpochToTimestampTz, hshift, ratTrunc_intCast]
  constructor
  · simp [ToScalarDatum, timestampType, TYPCATEGORY_COMPOSITE, OIDOID, BOOLOID, INT2OID,
      INT4OID, INT8OID, FLOAT4OID, FLOAT8OID, NUMERICOID, DATEOID, TIMESTAMPOID, TIMESTAMPTZOID,
      DynValue.isUndefined, DynValue.isNull, harm]
  · simp only [ToScalarValue, timestampType, OIDOID, BOOLOID, INT2OID, INT4OID, INT8OID,
      FLOAT4OID, FLOAT8OID, NUMERICOID, DATEOID, TIMESTAMPOID, TIMESTAMPTZOID]
    norm_num [TimestampTzToEpoch]
    rw [eq_comm]
    field_simp [epochShiftMs, POSTGRES_EPOCH_JDATE, UNIX_EPOCH_JDATE]
    push_cast
    ring

/-- C7: decoding an INT8 datum yields a BigInt by default; with
`BIGINT_GRACEFUL` it yields a Number when the value fits the signed
32-bit range and its decimal string otherwise. -/
theorem c7_int8_graceful (env : PgEnv) (v : Int) :
    ToScalarValue env int8Type (.int64 v)
      = .ok (if env.bigintGraceful then
               (if v > 2147483647 ∨ v < -2147483648 then DynValue.str (toString v)
                else .number (v : ℚ))
             else .bigint v) := by
  simp only [ToScalarValue, int8Type, OIDOID, BOOLOID, INT2OID, INT4OID, INT8OID]
  norm_num
  split_ifs <;> rfl

/-- C8: in the direct JSONB encoder, a key whose value is Undefined is
dropped entirely — at any position of the property list — and in
particular encoding the object with members a → undefined, b → 1
produces the single-member document b → 1. -/
theorem c8_undefined_key_dropped :
    (∀ (env : PgEnv) (pre : List (String × DynValue)) (k : String)
       (rest : List (String × DynValue)),
      JsonbObjectFromObject env (pre ++ (k, DynValue.undefined) :: rest)
        = JsonbObjectFromObject env (pre ++ rest)) ∧
    (∀ env : PgEnv,
      ConvertObject env (.object [("a", .undefined), ("b", .number 1)])
        = .jobj [("b", .jnum 1)]) := by
  constructor
  · intro env pre k rest
    induction pre with
    | nil => simp [JsonbObjectFromObject, jsonbLeaf]
    | cons hd tl ih =>
      obtain ⟨k2, o⟩ := hd
      rw [List.cons_append, List.cons_append,
          JsonbObjectFromObject.eq_def, JsonbObjectFromObject.eq_def]
      simp only
      rw [ih]
  · intro env
    simp [ConvertObject, JsonbObjectFromObject, jsonbLeaf]

/-- C9: for every array datum of the 64-bit-signed external kind with
no null bitmap and at most one dimension, decoding raises "unexpected
array type": the `kExternalInt64Array` arm of `CreateExternalArray`
has no `break`, so the constructed BigInt64 view is discarded and the
`default` arm throws; the 64-bit external domain never yields a typed
buffer. -/
theorem c9_int64_always_errors (env : PgEnv) (type : PlV8Type) (ndim : Nat) (lb : Int)
    (elems : List (Option Datum)) (data : List UInt8)
    (hext : type.ext_array = some .int64) (hdim : ndim ≤ 1) :
    ToArrayValue env type (.array ndim lb false elems data)
      = .error (.jsError "unexpected array type") := by
  rw [ToArrayValue, hext]
  simp [hdim, CreateExternalArray]

/-- Witness for C9 at a concrete one-element int64 external array. -/
theorem c9_int64_always_errors_witness :
    ToArrayValue envW int8ArrayDomainType
      (.array 1 1 false [some (.int64 7)] [7, 0, 0, 0, 0, 0, 0, 0])
      = .error (.jsError "unexpected array type") :=
  c9_int64_always_errors envW int8ArrayDomainType 1 1 [some (.int64 7)]
    [7, 0, 0, 0, 0, 0, 0, 0] rfl (by decide)

/-- C10: the inferred database type of a JS value is text for
Undefined, Null and String; boolean for Boolean; int4 for an Int32
number; int8 for a Uint32-but-not-Int32 number and for BigInt; float8
for every other number; timestamp for Date; and InvalidOid for every
other kind (objects, arrays, typed arrays, array buffers). -/
theorem c10_inferred_type :
    (inferred_datum_type .undefined = TEXTOID) ∧
    (inferred_datum_type .null = TEXTOID) ∧
    (∀ s, inferred_datum_type (.str s) = TEXTOID) ∧
    (∀ b, inferred_datum_type (.boolean b) = BOOLOID) ∧
    (∀ q : ℚ, DynValue.isInt32 (.number q) = true →
      inferred_datum_type (.number q) = INT4OID) ∧
    (∀ q : ℚ, DynValue.isUint32 (.number q) = true → DynValue.isInt32 (.number q) = false →
      inferred_datum_type (.number q) = INT8OID) ∧
    (∀ n : Int, inferred_datum_type (.bigint n) = INT8OID) ∧
    (∀ q : ℚ, DynValue.isInt32 (.number q) = false → DynValue.isUint32 (.number q) = false →
      inferred_datum_type (.number q) = FLOAT8OID) ∧
    (∀ t, inferred_datum_type (.date t) = TIMESTAMPOID) ∧
    (∀ k bytes ext, inferred_datum_type (.typedArray k bytes ext) = InvalidOid) ∧
    (∀ bytes, inferred_datum_type (.arrayBuffer bytes) = InvalidOid) ∧
    (∀ elems, inferred_datum_type (.arr elems) = InvalidOid) ∧
    (∀ fields, inferred_datum_type (.object fields) = InvalidOid) := by
  refine ⟨rfl, rfl, fun s => rfl, fun b => rfl, fun q h => ?_, fun q h1 h2 => ?_,
          fun n => rfl, fun q h1 h2 => ?_, fun t => rfl, fun k bytes ext => rfl,
          fun bytes => rfl, fun elems => rfl, fun fields => rfl⟩
  · simp [inferred_datum_type, DynValue.isUndefined, DynValue.isNull, DynValue.isBoolean, h]
  · simp [inferred_datum_type, DynValue.isUndefined, DynValue.isNull, DynValue.isBoolean,
      h1, h2]
  · simp [inferred_datum_type, DynValue.isUndefined, DynValue.isNull, DynValue.isBoolean,
      DynValue.isBigInt, DynValue.isNumber, DynValue.isString, h1, h2]

/-- Witness for C10 at concrete numbers: 5 is Int32 (int4),
2^31 is Uint32-not-Int32 (int8), 2^32 is neither (float8). -/
theorem c10_inferred_type_witness :
    inferred_datum_type (.number 5) = INT4OID ∧
    inferred_datum_type (.number 2147483648) = INT8OID ∧
    inferred_datum_type (.number 4294967296) = FLOAT8OID :=
  ⟨c10_inferred_type.2.2.2.2.1 5 (by decide),
   c10_inferred_type.2.2.2.2.2.1 2147483648 (by decide) (by decide),
   c10_inferred_type.2.2.2.2.2.2.2.1 4294967296 (by decide) (by decide)⟩

/-! Evaluation lemmas for `kindMatches` at each `switch` arm's OID. -/

theorem kindMatches_oid (v : DynValue) : kindMatches OIDOID v = v.isNumber := rfl
theorem kindMatches_bool (v : DynValue) : kindMatches BOOLOID v = v.isBoolean := rfl
theorem kindMatches_int2 (v : DynValue) : kindMatches INT2OID v = v.isNumber := rfl
theorem kindMatches_int4 (v : DynValue) : kindMatches INT4OID v = v.isNumber := rfl
theorem kindMatches_int8 (v : DynValue) :
    kindMatches INT8OID v = (v.isBigInt || v.isNumber) := rfl
theorem kindMatches_float4 (v : DynValue) : kindMatches FLOAT4OID v = v.isNumber := rfl
theorem kindMatches_float8 (v : DynValue) : kindMatches FLOAT8OID v = v.isNumber := rfl
theorem kindMatches_numeric (v : DynValue) :
    kindMatches NUMERICOID v = (v.isBigInt || v.isNumber) := rfl
theorem kindMatches_date (v : DynValue) : kindMatches DATEOID v = v.isDate := rfl
theorem kindMatches_timestamp (v : DynValue) : kindMatches TIMESTAMPOID v = v.isDate := rfl
theorem kindMatches_timestamptz (v : DynValue) : kindMatches TIMESTAMPTZOID v = v.isDate := rfl
theorem kindMatches_jsonb (v : DynValue) :
    kindMatches JSONBOID v = (v.isObject || v.isArray) := rfl
theorem kindMatches_json (v : DynValue) :
    kindMatches JSONOID v = (v.isObject || v.isArray) := rfl

/-- C2 (amended): for every non-null dynamic value whose runtime kind
is incompatible with the target scalar type's expected kind, scalar
encode falls through to stringifying the value and invoking the
target type's textual input function — raising an error exactly when
that input function rejects the string — for every target type
except BYTEA with a JS-object-kind value (which falls through into
the JSONB arm instead, see the counterexample) and JSONB under
direct conversion (which converts unconditionally). -/
theorem c2_escape_hatch_amended (env : PgEnv) (type : PlV8Type) (value : DynValue)
    (hcat : type.category ≠ TYPCATEGORY_COMPOSITE)
    (hund : value.isUndefined = false) (hnul : value.isNull = false)
    (hkind : kindMatches type.typid value = false)
    (hbytea : type.typid = BYTEAOID → env.jsonbDirect = false ∧ value.isObject = false)
    (hjsonb : type.typid = JSONBOID → env.jsonbDirect = false) :
    ToScalarDatum env type value = lexicalCast env type value ∧
    (∀ m, ToScalarDatum env type value = .error (.pgError m) ↔
      env.inputFn type.typid (env.toStr value) = .error m) := by
  have hmain : ToScalarDatum env type value = lexicalCast env type value := by
    unfold ToScalarDatum
    rw [if_neg hcat, if_neg (show ¬(value.isUndefined || value.isNull) = true by simp [hund, hnul])]
    by_cases h1 : type.typid = OIDOID
    · rw [if_pos h1]
      rw [h1, kindMatches_oid] at hkind
      cases value <;> first | rfl | simp [DynValue.isNumber] at hkind
    rw [if_neg h1]
    by_cases h2 : type.typid = BOOLOID
    · rw [if_pos h2]
      rw [h2, kindMatches_bool] at hkind
      cases value <;> first | rfl | simp [DynValue.isBoolean] at hkind
    rw [if_neg h2]
    by_cases h3 : type.typid = INT2OID
    · rw [if_pos h3]
      rw [h3, kindMatches_int2] at hkind
      cases value <;> first | rfl | simp [DynValue.isNumber] at hkind
    rw [if_neg h3]
    by_cases h4 : type.typid = INT4OID
    · rw [if_pos h4]
      rw [h4, kindMatches_int4] at hkind
      cases value <;> first | rfl | simp [DynValue.isNumber] at hkind
    rw [if_neg h4]
    by_cases h5 : type.typid = INT8OID
    · rw [if_pos h5]
      rw [h5, kindMatches_int8] at hkind
      cases value <;> first | rfl | simp [DynValue.isBigInt, DynValue.isNumber] at hkind
    rw [if_neg h5]
    by_cases h6 : type.typid = FLOAT4OID
    · rw [if_pos h6]
      rw [h6, kindMatches_float4] at hkind
      cases value <;> first | rfl | simp [DynValue.isNumber] at hkind
    rw [if_neg h6]
    by_cases h7 : type.typid = FLOAT8OID
    · rw [if_pos h7]
      rw [h7, kindMatches_float8] at hkind
      cases value <;> first | rfl | simp [DynValue.isNumber] at hkind
    rw [if_neg h7]
    by_cases h8 : type.typid = NUMERICOID
    · rw [if_pos h8]
      rw [h8, kindMatches_numeric] at hkind
      cases value <;> first | rfl | simp [DynValue.isBigInt, DynValue.isNumber] at hkind
    rw [if_neg h8]
    by_cases h9 : type.typid = DATEOID
    · rw [if_pos h9]
      rw [h9, kindMatches_date] at hkind
      cases value <;> first | rfl | simp [DynValue.isDate] at hkind
    rw [if_neg h9]
    by_cases h10 : type.typid = TIMESTAMPOID ∨ type.typid = TIMESTAMPTZOID
    · rw [if_pos h10]
      have hd : value.isDate = false := by
        rcases h10 with h | h
        · rw [h, kindMatches_timestamp] at hkind; exact hkind
        · rw [h, kindMatches_timestamptz] at hkind; exact hkind
      cases value <;> first | rfl | simp [DynValue.isDate] at hd
    rw [if_neg h10]
    by_cases h11 : type.typid = BYTEAOID
    · rw [if_pos h11]
      obtain ⟨hdir, hobj⟩ := hbytea h11
      cases value with
      | undefined => simp [DynValue.isUndefined] at hund
      | null => simp [DynValue.isNull] at hnul
      | boolean b =>
        show jsonbArm env type (.boolean b) = lexicalCast env type (.boolean b)
        unfold jsonbArm
        rw [if_neg (by simp [hdir]), if_neg (by simp [DynValue.isObject, DynValue.isArray])]
      | number q =>
        show jsonbArm env type (.number q) = lexicalCast env type (.number q)
        unfold jsonbArm
        rw [if_neg (by simp [hdir]), if_neg (by simp [DynValue.isObject, DynValue.isArray])]
      | bigint n =>
        show jsonbArm env type (.bigint n) = lexicalCast env type (.bigint n)
        unfold jsonbArm
        rw [if_neg (by simp [hdir]), if_neg (by simp [DynValue.isObject, DynValue.isArray])]
      | str s =>
        show jsonbArm env type (.str s) = lexicalCast env type (.str s)
        unfold jsonbArm
        rw [if_neg (by simp [hdir]), if_neg (by simp [DynValue.isObject, DynValue.isArray])]
      | date t => simp [DynValue.isObject] at hobj
      | typedArray k bytes ext => simp [DynValue.isObject] at hobj
      | arrayBuffer bytes => simp [DynValue.isObject] at hobj
      | arr elems => simp [DynValue.isObject] at hobj
      | object fields => simp [DynValue.isObject] at hobj
    rw [if_neg h11]
    by_cases h12 : type.typid = JSONBOID
    · rw [if_pos h12]
      rw [h12, kindMatches_jsonb] at hkind
      unfold jsonbArm
      rw [if_neg (by simp [hjsonb h12]), if_neg (by simp [hkind])]
    rw [if_neg h12]
    by_cases h13 : type.typid = JSONOID
    · rw [if_pos h13]
      rw [h13, kindMatches_json] at hkind
      rw [if_neg (by simp [hkind])]
    rw [if_neg h13]
  refine ⟨hmain, fun m => ?_⟩
  rw [hmain]
  unfold lexicalCast
  cases henv : env.inputFn type.typid (env.toStr value) with
  | ok d => simp [henv]
  | error m2 => simp [henv]

/-- C2 counterexample: a plain object supplied where BYTEA expects a
typed array has an incompatible kind and an input function that
rejects every string, yet scalar encode succeeds — the `case
BYTEAOID` fallthrough JSON-stringifies the object and stores the
result of `jsonb_in`, so "error iff the input function rejects" fails
as a universal statement. -/
theorem c2_escape_hatch_counterexample :
    kindMatches BYTEAOID (DynValue.object []) = false ∧
    envCE.inputFn BYTEAOID (envCE.toStr (DynValue.object [])) = .error "input function rejected" ∧
    ToScalarDatum envCE byteaType (DynValue.object [])
      = .ok ⟨false, .text "via-jsonb-in"⟩ := ⟨rfl, rfl, rfl⟩

/-- Witness for the amended C2: a string supplied where BOOL expects
a boolean takes the lexical-cast path. -/
theorem c2_escape_hatch_amended_witness :
    ToScalarDatum envW boolType (DynValue.str "yes")
      = lexicalCast envW boolType (DynValue.str "yes") :=
  (c2_escape_hatch_amended envW boolType (DynValue.str "yes")
    (by decide) rfl rfl (by decide) (by decide) (by decide)).1

/-- C4: encoding a dynamic array whose elements all convert produces a
one-dimensional database array with lower bound 1
whose i-th element is the conversion of the i-th dynamic element, and
decoding that array (when each element decodes) returns a dynamic
sequence of the same length N with the elements in original order —
for every N, in particular N ∈ {0, 1, 1000}. -/
theorem c4_array_roundtrip (env : PgEnv) (type : PlV8Type)
    (vs : List DynValue) (ds : List (Option Datum)) (ws : List DynValue)
    (hcat : type.category = TYPCATEGORY_ARRAY)
    (hext : type.ext_array = none)
    (henc : encodeElems env type vs = .ok ds)
    (hdec : mapToValue env (arrayBase env type) ds = .ok ws) :
    ToArrayDatum env type (.arr vs)
      = .ok ⟨false, .array 1 1 (ds.any Option.isNone) ds (env.packBytes type.typid ds)⟩ ∧
    ds.length = vs.length ∧
    (∀ i (hv : i < vs.length) (hd : i < ds.length),
      ∃ r : EncodeResult,
        (if type.is_composite then ToRecordDatum env type (vs.get ⟨i, hv⟩)
         else ToScalarDatum env type (vs.get ⟨i, hv⟩)) = .ok r ∧
        ds.get ⟨i, hd⟩ = (if r.isnull then none else some r.datum)) ∧
    ToValue env type (.array 1 1 (ds.any Option.isNone) ds (env.packBytes type.typid ds)) false
      = .ok (.arr ws) ∧
    ws.length = vs.length ∧
    (∀ i (hd : i < ds.length) (hw : i < ws.length),
      ToValue env (arrayBase env type) ((ds.get ⟨i, hd⟩).getD .zero) (ds.get ⟨i, hd⟩).isNone
        = .ok (ws.get ⟨i, hw⟩)) := by
  refine ⟨?_, encodeElems_length henc, encodeElems_get henc, ?_,
          (mapToValue_length hdec).trans (encodeElems_length henc), mapToValue_get hdec⟩
  · simp [ToArrayDatum, ExtractExternalArrayDatum, DynValue.isUndefined, DynValue.isNull, henc]
  · rw [ToValue]
    simp [hcat, TYPCATEGORY_ARRAY]
    rw [ToArrayValue, hext]
    simp [hdec, Except.map]

/-- Witness for C4: an int4[] round trip of [1, 2]. -/
theorem c4_array_roundtrip_witness :
    ToArrayDatum envW int4ArrayType (.arr [.number 1, .number 2])
      = .ok ⟨false, .array 1 1 false [some (.int32 1), some (.int32 2)] []⟩ ∧
    ToValue envW int4ArrayType (.array 1 1 false [some (.int32 1), some (.int32 2)] []) false
      = .ok (.arr [.number 1, .number 2]) := by
  have h := c4_array_roundtrip envW int4ArrayType [.number 1, .number 2]
      [some (.int32 1), some (.int32 2)] [.number 1, .number 2] rfl rfl rfl
      (by simp [mapToValue, ToValue, ToScalarValue, arrayBase, envW, int4ArrayType,
            Option.getD, INT4OID, OIDOID, BOOLOID, INT2OID, TYPCATEGORY_ARRAY,
            TYPCATEGORY_COMPOSITE, RECORDARRAYOID, RECORDOID])
  exact ⟨by simpa [envW] using h.1, by simpa [envW] using h.2.2.2.1⟩
